import Mathlib

/-!
Verification of the credit-cards statement pipeline
(src/text_parser.py, src/password_utils.py, src/pdf_utils.py,
src/email_processor.py) through a shallow embedding in Lean 4.

Python strings are modelled as Lean `String`/`List Char` (ASCII-faithful:
`lower`/`upper`/whitespace follow the ASCII behaviour, which covers every
character the claims exercise).  Python `float` values produced by exact
decimal parsing are modelled as `ℚ` (the decimal literals in the claims are
exactly representable, so no rounding is lost).  Fallible Python code is
modelled with `Option`/`Except`.
-/

namespace CCStmt

/-- Python whitespace (ASCII fragment of `\s` and `str.strip`). -/
def isPyWs (c : Char) : Bool :=
  c = ' ' || c = '\t' || c = '\n' || c = '\r' || c = '\x0b' || c = '\x0c'

/-- Python `str.strip()` on a character list. -/
def pyStripL (cs : List Char) : List Char :=
  ((cs.dropWhile isPyWs).reverse.dropWhile isPyWs).reverse

/-- Python `str.strip()`. -/
def pyStrip (s : String) : String := String.mk (pyStripL s.toList)

/-- Python `str.lower()` (ASCII). -/
def pyLower (s : String) : String := String.mk (s.toList.map Char.toLower)

/-- Python `str.upper()` (ASCII). -/
def pyUpper (s : String) : String := String.mk (s.toList.map Char.toUpper)

/-- Python `s[:n]` (take the first `n` characters). -/
def pySlice (n : ℕ) (s : String) : String := String.mk (s.toList.take n)

/-- Python `s[-n:]` (take the last `n` characters; whole string if shorter). -/
def pySliceLast (n : ℕ) (s : String) : String :=
  String.mk (s.toList.drop (s.toList.length - n))

/-- Numeric value of one ASCII digit character. -/
def digitVal (c : Char) : ℕ := c.toNat - 48

/-- Value of a list of ASCII digit characters read in base 10. -/
def decDigits (cs : List Char) : ℕ := cs.foldl (fun a c => 10 * a + digitVal c) 0

/-- Syntactic part of CPython `float(s)` on a string already stripped of
surrounding whitespace: optional sign, digits with an optional fractional
part, optional exponent; anything else fails (`ValueError`, modelled as
`none`).  Returns `(m, k, e)` standing for the value `m / 10^k * 10^e`.
(The `inf`/`nan` words and `_` digit separators accepted by CPython never
arise from the cleaned statement strings handled here and are not
modelled.) -/
def pyFloatRepr (cs : List Char) : Option (ℤ × ℕ × ℤ) :=
  let (sgn, cs₁) : ℤ × List Char :=
    match cs with
    | '+' :: r => (1, r)
    | '-' :: r => (-1, r)
    | _ => (1, cs)
  let intD := cs₁.takeWhile Char.isDigit
  let cs₂ := cs₁.dropWhile Char.isDigit
  let (fracD, cs₃) : List Char × List Char :=
    match cs₂ with
    | '.' :: r => (r.takeWhile Char.isDigit, r.dropWhile Char.isDigit)
    | _ => ([], cs₂)
  if intD = [] ∧ fracD = [] then none
  else
    let m : ℤ := sgn * (decDigits (intD ++ fracD) : ℤ)
    match cs₃ with
    | [] => some (m, fracD.length, 0)
    | e :: r =>
      if e = 'e' ∨ e = 'E' then
        let (esgn, r₁) : ℤ × List Char :=
          match r with
          | '+' :: r₂ => (1, r₂)
          | '-' :: r₂ => (-1, r₂)
          | _ => (1, r)
        let expD := r₁.takeWhile Char.isDigit
        let r₂ := r₁.dropWhile Char.isDigit
        if expD = [] ∨ r₂ ≠ [] then none
        else some (m, fracD.length, esgn * (decDigits expD : ℤ))
      else none

/-- The rational value denoted by a parsed float representation. -/
def ratOfRepr : ℤ × ℕ × ℤ → ℚ
  | (m, k, e) => (m : ℚ) / (10 : ℚ) ^ k * (10 : ℚ) ^ e

/-- Model of CPython `float(s)` as an exact rational (surrounding
whitespace is ignored, as `float` does). -/
def pyFloat? (s : String) : Option ℚ :=
  (pyFloatRepr (pyStripL s.toList)).map ratOfRepr

/-- The character class of `re.sub(r"[₹$€£Rs\.,\s]", "", ...)` in
`text_parser.format_extracted_amount` (src/text_parser.py line 19): the
currency symbols, the two letters `R` and `s`, the literal dot, the comma,
and whitespace. -/
def aggressiveCleanChar (c : Char) : Bool :=
  c = '₹' || c = '$' || c = '€' || c = '£' || c = 'R' || c = 's' ||
  c = '.' || c = ',' || isPyWs c

/-- `re.sub(r"[₹$€£Rs\.,\s]", "", s).strip()` (src/text_parser.py line 19). -/
def aggressiveClean (s : String) : String :=
  pyStrip (String.mk (s.toList.filter (fun c => ¬ aggressiveCleanChar c)))

/-- `re.sub(r"[^\d\.]", "", s).strip()` (src/text_parser.py line 28):
keep only digits and dots. -/
def lessClean (s : String) : String :=
  pyStrip (String.mk (s.toList.filter (fun c => c.isDigit || c = '.')))

/-- Scalar JSON/Python values as they appear as fields of the extractor's
result dictionary (`json.loads` output).  Nested containers are never
inspected by the source and are not modelled as field values. -/
inductive JVal where
  | jnull
  | jint (n : ℤ)
  | jfloat (q : ℚ)
  | jstr (s : String)
deriving DecidableEq, Repr

/-- `text_parser.format_extracted_amount` (src/text_parser.py lines 10-36).
Numbers pass through `float(...)`; strings are aggressively cleaned and
parsed, with a digits-and-dots fallback; on total failure the original
string is returned unchanged; any other value is returned as is. -/
def format_extracted_amount : JVal → JVal
  | .jint n => .jfloat (n : ℚ)
  | .jfloat q => .jfloat q
  | .jstr s =>
    match pyFloat? (aggressiveClean s) with
    | some q => .jfloat q
    | none =>
      let lc := lessClean s
      if lc ≠ "" then
        match pyFloat? lc with
        | some q => .jfloat q
        | none => .jstr s
      else .jstr s
  | .jnull => .jnull

/-- A Python dict with string keys in insertion order (keys unique by
construction of `dictSet`). -/
abbrev PyDict := List (String × JVal)

/-- Python `d.get(k)` / `d[k]` lookup. -/
def dictGet (d : PyDict) (k : String) : Option JVal :=
  (d.find? (fun kv => kv.1 == k)).map (fun kv => kv.2)

/-- Python `d[k] = v`: overwrite in place or append. -/
def dictSet (d : PyDict) (k : String) (v : JVal) : PyDict :=
  if d.any (fun kv => kv.1 == k) then
    d.map (fun kv => if kv.1 == k then (k, v) else kv)
  else d ++ [(k, v)]

/-- Python `d.update(e)`: every key of `e` overwrites or extends `d`. -/
def dictUpdate (d e : PyDict) : PyDict :=
  e.foldl (fun acc kv => dictSet acc kv.1 kv.2) d

/-- Python `str()` of a float value modelled as an exact rational: integral
values render with a trailing `.0` as CPython does; other finite decimals
render exactly (CPython's shortest round-trip repr agrees on the short
decimal fractions that occur in statements); the non-decimal fallback never
arises from JSON-parsed numbers. -/
def floatStr (q : ℚ) : String :=
  if q.den = 1 then toString q.num ++ ".0"
  else
    match (List.range 64).find? (fun k => 10 ^ k % q.den = 0) with
    | some k =>
      let scaled : ℤ := q.num * ((10 : ℤ) ^ k / (q.den : ℤ))
      let digits := toString scaled.natAbs
      let digits := if digits.length ≤ k then
        String.mk (List.replicate (k + 1 - digits.length) '0') ++ digits else digits
      let sign := if scaled < 0 then "-" else ""
      sign ++ pySlice (digits.length - k) digits ++ "." ++ pySliceLast k digits
    | none => toString q.num ++ "/" ++ toString q.den

/-- Python `str()` on a scalar extractor value.  Crucially,
`str(None) = "None"`, a non-empty (truthy) string. -/
def pyStrOfJVal : JVal → String
  | .jnull => "None"
  | .jint n => toString n
  | .jfloat q => floatStr q
  | .jstr s => s

/-- How the card-verification branch left the email's provenance tag
(email_processor.py lines 303-312): `verified` stands for the source string
`pdf_<filename>_gemini`, `unverified` for
`pdf_<filename>_gemini_card_unverified`, and `unchanged` means the PDF's
fields were discarded and neither details nor source were touched. -/
inductive SourceMark where
  | unchanged
  | verified
  | unverified
deriving DecidableEq, Repr

/-- `user_pii["credit_card_number"][-4:] if user_pii["credit_card_number"]
and len(user_pii["credit_card_number"]) >= 4 else None`
(email_processor.py line 301). -/
def userCardLast4 (ccn : String) : Option String :=
  if ccn ≠ "" ∧ 4 ≤ ccn.length then some (pySliceLast 4 ccn) else none

/-- The card-verification merge for one PDF's extracted details
(email_processor.py lines 300-312).  `statement_card_last4` is
`str(pdf_details.get("card_last_4_digits", "")).strip()`; the three-way
branch is the source's `if`/`elif`/`else` chain: match → merge (PDF fields
take precedence) and mark verified; user or statement digits falsy → merge
cautiously, mark unverified; otherwise → discard the PDF's fields. -/
def cardMergeStep (ccn : String) (details pd : PyDict) : PyDict × SourceMark :=
  let s4 := pyStrip (pyStrOfJVal ((dictGet pd "card_last_4_digits").getD (.jstr "")))
  match userCardLast4 ccn with
  | none => (dictUpdate details pd, .unverified)
  | some u4 =>
    if s4 ≠ "" ∧ s4 = u4 then (dictUpdate details pd, .verified)
    else if s4 = "" then (dictUpdate details pd, .unverified)
    else (details, .unchanged)

/-- `d.get(k) is not None` (email_processor.py lines 262-263, 319-320,
330-331). -/
def fieldNonNull (d : PyDict) (k : String) : Bool :=
  match dictGet d k with
  | some v => v != .jnull
  | none => false

/-- Both essential fields present and non-null (email_processor.py lines
319-320 and 330-331). -/
def essentialsOk (d : PyDict) : Bool :=
  fieldNonNull d "total_amount_due" && fieldNonNull d "minimum_amount_due"

/-- One candidate email as the pipeline sees it after the external
collaborators ran: the extractor's output for the body text (`[]` when the
body was empty or extraction returned nothing), and the extractor's output
for each PDF attachment in attachment order (`[]` entries for PDFs whose
text could not be extracted or parsed). -/
structure EmailCase where
  bodyDetails : PyDict
  pdfDetails : List PyDict
deriving DecidableEq, Repr

/-- The PDF-attachment loop (email_processor.py lines 277-323): for each
PDF, if the extractor returned details, run the card-verification merge;
after every attachment, stop as soon as both essential fields are
present. -/
def mergePdfLoop (ccn : String) (d : PyDict) : List PyDict → PyDict
  | [] => d
  | pd :: rest =>
    let d' := if pd ≠ [] then (cardMergeStep ccn d pd).1 else d
    if essentialsOk d' then d' else mergePdfLoop ccn d' rest

/-- `essential_details_in_body` (email_processor.py lines 257-264): set only
when the body extraction returned a non-empty dict whose two essential
fields are non-null. -/
def bodyEssentials (body : PyDict) : Bool :=
  body != [] && fieldNonNull body "total_amount_due" &&
    fieldNonNull body "minimum_amount_due"

/-- The merged details
for one email (email_processor.py lines 216-325): start from `{}`, update
with the body extraction when non-empty, and walk the PDF attachments only
when the body left the essential fields incomplete. -/
def processEmailDetails (ccn : String) (e : EmailCase) : PyDict :=
  let d1 := if e.bodyDetails ≠ [] then dictUpdate [] e.bodyDetails else []
  if bodyEssentials e.bodyDetails then d1 else mergePdfLoop ccn d1 e.pdfDetails

/-- The per-email emission gate (email_processor.py lines 329-335): the
email contributes a StatementResult exactly when its merged details are a
non-empty dict with both essential fields non-null. -/
def emailResult (ccn : String) (e : EmailCase) : Option PyDict :=
  let d := processEmailDetails ccn e
  if d ≠ [] ∧ essentialsOk d then some d else none

/-- `all_extracted_data` at the end of a successful run: the merged details
of the emails that passed the gate, in processing order. -/
def pipelineResults (ccn : String) (es : List EmailCase) : List PyDict :=
  es.filterMap (emailResult ccn)

end CCStmt

namespace CCStmt

/-- An email's merged details pass the gate in the closed form used below. -/
theorem emailResult_eq (ccn : String) (e : EmailCase) :
    emailResult ccn e =
      if essentialsOk (processEmailDetails ccn e) then
        some (processEmailDetails ccn e)
      else none := by
  unfold emailResult
  by_cases h : essentialsOk (processEmailDetails ccn e) = true
  · have hne : processEmailDetails ccn e ≠ [] := by
      intro hnil
      rw [hnil] at h
      exact absurd h (by decide)
    simp [h, hne]
  · simp [h]

/-- Claim C2: the code does NOT map the string "6,225.00" to 6225.0: the
regex character class `[₹$€£Rs\.,\s]` also removes the decimal point, so the
cleaned string is "622500" and the result is 622500.0. -/
theorem format_amount_drops_decimal_point :
    format_extracted_amount (.jstr "6,225.00") = .jfloat 622500 ∧
    format_extracted_amount (.jstr "6,225.00") ≠ .jfloat 6225 := by
  have hrepr : pyFloatRepr (pyStripL (aggressiveClean "6,225.00").toList) =
      some (622500, 0, 0) := by decide
  have hq : pyFloat? (aggressiveClean "6,225.00") = some 622500 := by
    rw [pyFloat?, hrepr]
    norm_num [ratOfRepr]
  constructor
  · rw [format_extracted_amount, hq]
  · rw [format_extracted_amount, hq]
    intro hcontra
    have : (622500 : ℚ) = 6225 := by injection hcontra
    norm_num at this

/-- Claim C1: a StatementResult is appended to the pipeline output if and
only if, after merging the body-derived and PDF-derived details, both
`total_amount_due` and `minimum_amount_due` are non-null: the output list
is exactly the merged details of the emails passing that check, in order.
(The source's extra guard that the dict be non-empty is implied by the two
lookups succeeding.) -/
theorem statement_emitted_iff_essentials (ccn : String) (es : List EmailCase) :
    pipelineResults ccn es =
      (es.filter (fun e => essentialsOk (processEmailDetails ccn e))).map
        (fun e => processEmailDetails ccn e) := by
  unfold pipelineResults
  induction es with
  | nil => rfl
  | cons e rest ih =>
    rw [List.filterMap_cons, List.filter_cons]
    by_cases h : essentialsOk (processEmailDetails ccn e) = true
    · simp [emailResult_eq, h, ih]
    · simp [emailResult_eq, h, ih]

/-- Claim C3 (code slip): when the extractor returns `card_last_4_digits`
PRESENT WITH VALUE null — a shape the extractor's own prompt allows — the
coercion `str(None)` produces the truthy string "None", the equality test
fails, and the code takes the mismatch branch: the PDF's fields (amounts
included) are discarded instead of merged with an unverified mark.  The
same PDF with the field ABSENT merges unverified, as the claim describes. -/
theorem card_null_value_discards_pdf_fields :
    cardMergeStep "1234567812341234" []
        [("card_last_4_digits", .jnull), ("total_amount_due", .jint 6225),
         ("minimum_amount_due", .jint 300)]
      = ([], .unchanged) ∧
    pyStrip (pyStrOfJVal
        ((dictGet [("card_last_4_digits", JVal.jnull)]
          "card_last_4_digits").getD (.jstr ""))) = "None" ∧
    (cardMergeStep "1234567812341234" []
        [("total_amount_due", .jint 6225), ("minimum_amount_due", .jint 300)]).2
      = .unverified := by
  refine ⟨by decide, by decide, by decide⟩

/-- Claim C10: an amount string that cannot be parsed as numeric even after
both cleaning passes is returned by `format_extracted_amount` unchanged;
the emission gate only tests the essential fields against null, so a
StatementResult can be emitted whose essential fields are non-numeric
strings. -/
theorem unparseable_amount_passes_gate (s : String)
    (h1 : pyFloat? (aggressiveClean s) = none)
    (h2 : lessClean s = "" ∨ pyFloat? (lessClean s) = none) :
    format_extracted_amount (.jstr s) = .jstr s ∧
    emailResult "1234567812341234"
        ⟨[("total_amount_due", .jstr "abc"), ("minimum_amount_due", .jstr "xyz")], []⟩
      = some [("total_amount_due", .jstr "abc"), ("minimum_amount_due", .jstr "xyz")] := by
  constructor
  · rw [format_extracted_amount, h1]
    rcases h2 with h2 | h2
    · simp [h2]
    · by_cases hlc : lessClean s = ""
      · simp [hlc]
      · simp [hlc, h2]
  · decide

/-- Witness for the claim C10 theorem at the concrete string "abc". -/
theorem unparseable_amount_passes_gate_witness :
    format_extracted_amount (.jstr "abc") = .jstr "abc" ∧
    emailResult "1234567812341234"
        ⟨[("total_amount_due", .jstr "abc"), ("minimum_amount_due", .jstr "xyz")], []⟩
      = some [("total_amount_due", .jstr "abc"), ("minimum_amount_due", .jstr "xyz")] := by
  have h1 : pyFloat? (aggressiveClean "abc") = none := by
    have h : pyFloatRepr (pyStripL (aggressiveClean "abc").toList) = none := by decide
    rw [pyFloat?, h]
    rfl
  have h2 : lessClean "abc" = "" ∨ pyFloat? (lessClean "abc") = none :=
    Or.inl (by decide)
  exact unparseable_amount_passes_gate "abc" h1 h2

end CCStmt

namespace CCStmt

/-- Outcome of one `reader.decrypt(password)` call (pdf_utils.py line 21):
PyPDF2 returns a truthy value on success, a falsy one on a clean failure,
and can raise on some wrong passwords — the source swallows the raise
(lines 33-35) and both non-success outcomes fall through to the next
candidate. -/
inductive DecryptOutcome where
  | success
  | failure
  | raises
deriving DecidableEq, Repr

/-- A PDF document as PyPDF2 presents it to `extract_text_from_pdf`: either
opening raises (`PdfReadError` or anything else: corrupt bytes, not a PDF),
or a reader carrying its encryption flag, the per-page `extract_text()`
results (`none` models a page yielding no text, tolerated by the source),
and the behaviour of `decrypt` on each candidate password. -/
inductive PdfDoc where
  | corrupt
  | reader (encrypted : Bool) (pages : List (Option String))
      (decrypt : String → DecryptOutcome)

/-- Concatenation of all pages' text (pdf_utils.py lines 22-28 and 39-45):
pages yielding no text contribute nothing and do not abort the document. -/
def concatPages (pages : List (Option String)) : String :=
  pages.foldl (fun acc p => match p with | some t => acc ++ t | none => acc) ""

/-- The password loop (pdf_utils.py lines 17-37): candidates in list order;
the first successful decrypt returns the document text at once; clean
failures and raised errors both continue with the next candidate;
exhaustion returns null. -/
def tryPasswords (pages : List (Option String))
    (decrypt : String → DecryptOutcome) : List String → Option String
  | [] => none
  | p :: rest =>
    match decrypt p with
    | .success => some (concatPages pages)
    | .failure => tryPasswords pages decrypt rest
    | .raises => tryPasswords pages decrypt rest

/-- pdf_utils.extract_text_from_pdf (src/pdf_utils.py lines 7-53). -/
def extract_text_from_pdf : PdfDoc → List String → Option String
  | .corrupt, _ => none
  | .reader true pages decrypt, pws => tryPasswords pages decrypt pws
  | .reader false pages _, _ => some (concatPages pages)

/-- If no candidate password succeeds, the loop returns null. -/
theorem tryPasswords_all_fail (pages : List (Option String))
    (decrypt : String → DecryptOutcome) (pws : List String)
    (h : ∀ q ∈ pws, decrypt q ≠ .success) :
    tryPasswords pages decrypt pws = none := by
  induction pws with
  | nil => rfl
  | cons q rest ih =>
    have hq : decrypt q ≠ .success := h q (List.mem_cons_self q rest)
    have hrest : ∀ r ∈ rest, decrypt r ≠ .success :=
      fun r hr => h r (List.mem_cons_of_mem q hr)
    cases hdq : decrypt q with
    | success => exact absurd hdq hq
    | failure => simpa [tryPasswords, hdq] using ih hrest
    | raises => simpa [tryPasswords, hdq] using ih hrest

/-- The first successful candidate short-circuits the loop: the result is
the document text, independent of everything after that candidate. -/
theorem tryPasswords_first_success (pages : List (Option String))
    (decrypt : String → DecryptOutcome) (pre post : List String) (p : String)
    (hpre : ∀ q ∈ pre, decrypt q ≠ .success) (hp : decrypt p = .success) :
    tryPasswords pages decrypt (pre ++ p :: post) = some (concatPages pages) := by
  induction pre with
  | nil => simp [tryPasswords, hp]
  | cons q rest ih =>
    have hq : decrypt q ≠ .success := hpre q (List.mem_cons_self q rest)
    have hrest : ∀ r ∈ rest, decrypt r ≠ .success :=
      fun r hr => hpre r (List.mem_cons_of_mem q hr)
    cases hdq : decrypt q with
    | success => exact absurd hdq hq
    | failure => simpa [tryPasswords, hdq] using ih hrest
    | raises => simpa [tryPasswords, hdq] using ih hrest

/-- Claim C4: extract_text_from_pdf returns the concatenated page text of
an unencrypted readable document; on an encrypted one it tries candidates
in order, the first success yields the text and makes the result
independent of every later candidate, exhaustion yields null; an unreadable
document yields null rather than raising. -/
theorem pdf_extract_contract (pages : List (Option String))
    (decrypt : String → DecryptOutcome) (pws : List String) :
    extract_text_from_pdf .corrupt pws = none ∧
    extract_text_from_pdf (.reader false pages decrypt) pws
      = some (concatPages pages) ∧
    ((∀ q ∈ pws, decrypt q ≠ .success) →
      extract_text_from_pdf (.reader true pages decrypt) pws = none) ∧
    (∀ pre p post post', (∀ q ∈ pre, decrypt q ≠ .success) →
      decrypt p = .success →
      extract_text_from_pdf (.reader true pages decrypt) (pre ++ p :: post)
        = some (concatPages pages) ∧
      extract_text_from_pdf (.reader true pages decrypt) (pre ++ p :: post)
        = extract_text_from_pdf (.reader true pages decrypt) (pre ++ p :: post')) := by
  refine ⟨rfl, rfl, ?_, ?_⟩
  · intro hall
    exact tryPasswords_all_fail pages decrypt pws hall
  · intro pre p post post' hpre hp
    constructor
    · exact tryPasswords_first_success pages decrypt pre post p hpre hp
    · rw [show extract_text_from_pdf (.reader true pages decrypt) (pre ++ p :: post)
          = tryPasswords pages decrypt (pre ++ p :: post) from rfl,
        show extract_text_from_pdf (.reader true pages decrypt) (pre ++ p :: post')
          = tryPasswords pages decrypt (pre ++ p :: post') from rfl,
        tryPasswords_first_success pages decrypt pre post p hpre hp,
        tryPasswords_first_success pages decrypt pre post' p hpre hp]

/-- A three-page demo document (middle page yields no text). -/
def demoPages : List (Option String) := [some "Hello ", none, some "World"]

/-- A decrypt behaviour whose only working password is "pw". -/
def demoDecrypt : String → DecryptOutcome :=
  fun s => if s = "pw" then .success else .failure

/-- Witness for the claim C4 theorem on a concrete encrypted document. -/
theorem pdf_extract_contract_witness :
    (∀ q ∈ (["a"] : List String), demoDecrypt q ≠ .success) ∧
    demoDecrypt "pw" = .success ∧
    extract_text_from_pdf (.reader true demoPages demoDecrypt)
        (["a"] ++ "pw" :: ["b"]) = some (concatPages demoPages) ∧
    extract_text_from_pdf (.reader true demoPages demoDecrypt)
        (["a"] ++ "pw" :: ["b"])
      = extract_text_from_pdf (.reader true demoPages demoDecrypt)
        (["a"] ++ "pw" :: ["zzz"]) ∧
    (∀ q ∈ (["a", "b"] : List String), demoDecrypt q ≠ .success) ∧
    extract_text_from_pdf (.reader true demoPages demoDecrypt) ["a", "b"]
      = none := by
  have h := pdf_extract_contract demoPages demoDecrypt ["a", "b"]
  have h1 : ∀ q ∈ (["a"] : List String), demoDecrypt q ≠ .success := by decide
  have h2 : demoDecrypt "pw" = .success := by decide
  have h3 := h.2.2.2 ["a"] "pw" ["b"] ["zzz"] h1 h2
  have h4 : ∀ q ∈ (["a", "b"] : List String), demoDecrypt q ≠ .success := by
    decide
  exact ⟨h1, h2, h3.1, h3.2, h4, h.2.2.1 h4⟩

end CCStmt

namespace CCStmt

/-- Python `str.split()` with no argument: split on runs of whitespace,
producing no empty parts.  The accumulator holds the current word
reversed. -/
def pySplitWsAux : List Char → List Char → List (List Char)
  | [], acc => if acc = [] then [] else [acc.reverse]
  | c :: r, acc =>
    if isPyWs c then
      if acc = [] then pySplitWsAux r [] else acc.reverse :: pySplitWsAux r []
    else pySplitWsAux r (c :: acc)

/-- Python `s.split()`. -/
def pySplitWs (s : String) : List String :=
  (pySplitWsAux s.toList []).map String.mk

/-- Gregorian leap year, as `datetime.date` uses. -/
def isLeap (y : ℕ) : Bool := y % 4 == 0 && (y % 100 != 0 || y % 400 == 0)

/-- Days in a month of the proleptic Gregorian calendar
(`datetime.date` validity). -/
def daysInMonth (y m : ℕ) : ℕ :=
  if m = 2 then (if isLeap y then 29 else 28)
  else if m = 4 ∨ m = 6 ∨ m = 9 ∨ m = 11 then 30
  else 31

/-- Python `s.split(sep)` for a one-character separator: keeps empty
parts. -/
def splitOnChar (sep : Char) : List Char → List (List Char)
  | [] => [[]]
  | c :: r =>
    if c = sep then [] :: splitOnChar sep r
    else
      match splitOnChar sep r with
      | [] => [[c]]
      | w :: ws => (c :: w) :: ws

/-- `datetime.strptime(dob_str, "%Y-%m-%d")` (password_utils.py line 28):
`%Y` matches exactly four digits, `%m` and `%d` one or two digits, nothing
else may appear, and the triple must be a real calendar date with year ≥ 1
— otherwise `ValueError` (modelled as `none`).  Splitting on `-` is
equivalent to CPython's compiled pattern `\d\d\d\d-(m)-(d)` with full-match
check because every component must be all digits. -/
def parseDob (s : String) : Option (ℕ × ℕ × ℕ) :=
  match splitOnChar '-' s.toList with
  | [yl, ml, dl] =>
    if yl.length = 4 ∧ yl.all Char.isDigit ∧
        1 ≤ ml.length ∧ ml.length ≤ 2 ∧ ml.all Char.isDigit ∧
        1 ≤ dl.length ∧ dl.length ≤ 2 ∧ dl.all Char.isDigit then
      let y := decDigits yl
      let m := decDigits ml
      let d := decDigits dl
      if 1 ≤ y ∧ 1 ≤ m ∧ m ≤ 12 ∧ 1 ≤ d ∧ d ≤ daysInMonth y m then
        some (y, m, d)
      else none
    else none
  | _ => none

/-- The ASCII digit character for `n < 10`. -/
def digitChar (n : ℕ) : Char := Char.ofNat (48 + n)

/-- `strftime("%d")` / `"%m"` / `"%y"`: two digits, zero padded (the
argument is always below 100 here). -/
def pad2 (n : ℕ) : String := String.mk [digitChar (n / 10 % 10), digitChar (n % 10)]

/-- `strftime("%Y")` renders the year with no padding on the platform the
source targets (glibc); years parsed by `%Y` are at most four digits. -/
def fmtYear (y : ℕ) : String :=
  if y < 10 then String.mk [digitChar y]
  else if y < 100 then pad2 y
  else if y < 1000 then
    String.mk [digitChar (y / 100), digitChar (y / 10 % 10), digitChar (y % 10)]
  else
    String.mk [digitChar (y / 1000 % 10), digitChar (y / 100 % 10),
      digitChar (y / 10 % 10), digitChar (y % 10)]

/-- `full_name.lower().split()[0]` when a first word exists, `""` otherwise
(password_utils.py lines 18-19). -/
def firstNameLower (full_name : String) : String :=
  (pySplitWs (pyLower full_name)).headD ""

/-- `first_four_of_name_lower = first_name_lower[:4]`
(password_utils.py line 66). -/
def nameFourLower (full_name : String) : String :=
  pySlice 4 (firstNameLower full_name)

/-- `name_on_card_first_four_upper` (password_utils.py line 23); the
conditional on an empty first name collapses because slicing the empty
string is empty. -/
def nameFourUpper (full_name : String) : String :=
  pyUpper (pySlice 4 (firstNameLower full_name))

/-- The `day, month, year_yy, year_yyyy, dob_ddmm` strings
(password_utils.py lines 26-36): strftime renderings when the DOB parses,
all left empty on a `ValueError`. -/
def dobComponents (dob_str : String) :
    String × String × String × String × String :=
  match parseDob dob_str with
  | some (y, m, d) => (pad2 d, pad2 m, pad2 (y % 100), fmtYear y, pad2 d ++ pad2 m)
  | none => ("", "", "", "", "")

/-- `last_four_card` (password_utils.py lines 39-44): the last four
characters when at least four are present, the whole (short) card number
when shorter but non-empty, empty otherwise. -/
def lastFourCard (ccn : String) : String :=
  if ccn ≠ "" ∧ 4 ≤ ccn.length then pySliceLast 4 ccn
  else if ccn ≠ "" then ccn
  else ""

/-- The guarded password patterns in the order the source inserts them
(password_utils.py lines 49-84): each entry pairs the Python
truthiness/length guard with the password it would add. -/
def passwordCandidates (full_name dob_str credit_card_number : String) :
    List (Bool × String) :=
  let n4U := nameFourUpper full_name
  let n4l := nameFourLower full_name
  let (day, month, yy, yyyy, ddmm) := dobComponents dob_str
  let l4 := lastFourCard credit_card_number
  [(n4U != "" && l4 != "" && l4.length == 4, n4U ++ l4),
   (n4U != "" && ddmm != "" && ddmm.length == 4, n4U ++ ddmm),
   (n4l != "" && day != "" && month != "", n4l ++ day ++ month),
   (n4l != "" && day != "" && month != "" && yy != "", n4l ++ day ++ month ++ yy),
   (n4l != "" && day != "" && month != "", pyUpper n4l ++ day ++ month),
   (n4l != "" && l4 != "", n4l ++ l4),
   (n4l != "" && l4 != "", pyUpper n4l ++ l4),
   (day != "" && month != "" && yy != "", day ++ month ++ yy),
   (day != "" && month != "" && yyyy != "", day ++ month ++ yyyy)]

/-- password_utils.generate_potential_passwords (src/password_utils.py
lines 6-93), as the set of strings the returned list contains
(`list(passwords)` of a Python set: arbitrary order, deduplicated).
`mobile_number` is accepted and unused, as in the source; the final
`passwords.discard("")` is the `erase`. -/
def generate_potential_passwords
    (full_name dob_str mobile_number credit_card_number : String) :
    Finset String :=
  ((passwordCandidates full_name dob_str credit_card_number).foldl
    (fun (s : Finset String) (gp : Bool × String) =>
      if gp.1 then insert gp.2 s else s) ∅).erase ""

end CCStmt

namespace CCStmt

/-- Membership in the guarded-insert fold that builds the password set. -/
theorem mem_guardedFold (l : List (Bool × String)) (s : Finset String)
    (x : String) :
    x ∈ l.foldl (fun (s : Finset String) (gp : Bool × String) =>
        if gp.1 then insert gp.2 s else s) s ↔
      x ∈ s ∨ ∃ gp ∈ l, gp.1 = true ∧ x = gp.2 := by
  induction l generalizing s with
  | nil => simp
  | cons gp rest ih =>
    rw [List.foldl_cons, ih]
    by_cases h : gp.1 = true
    · simp only [h, if_true, Finset.mem_insert, List.mem_cons]
      constructor
      · rintro ((rfl | hs) | hrest)
        · exact Or.inr ⟨gp, Or.inl rfl, h, rfl⟩
        · exact Or.inl hs
        · obtain ⟨g, hg, hg1, hg2⟩ := hrest
          exact Or.inr ⟨g, Or.inr hg, hg1, hg2⟩
      · rintro (hs | ⟨g, (rfl | hg), hg1, hg2⟩)
        · exact Or.inl (Or.inr hs)
        · exact Or.inl (Or.inl hg2)
        · exact Or.inr ⟨g, hg, hg1, hg2⟩
    · simp only [h, if_false, List.mem_cons]
      constructor
      · rintro (hs | ⟨g, hg, hg1, hg2⟩)
        · exact Or.inl hs
        · exact Or.inr ⟨g, Or.inr hg, hg1, hg2⟩
      · rintro (hs | ⟨g, (rfl | hg), hg1, hg2⟩)
        · exact Or.inl hs
        · exact absurd hg1 h
        · exact Or.inr ⟨g, hg, hg1, hg2⟩

/-- A string is non-empty iff its character list is. -/
theorem str_ne_empty_iff {s : String} : s ≠ "" ↔ s.toList ≠ [] := by
  rw [ne_eq, ← String.toList_inj, String.toList_empty]

/-- `String.mk` of a non-empty list is non-empty. -/
theorem mk_ne_empty_iff {l : List Char} : String.mk l ≠ "" ↔ l ≠ [] :=
  str_ne_empty_iff

/-- Appending to a non-empty string stays non-empty. -/
theorem append_ne_empty_left {a : String} (b : String) (h : a ≠ "") :
    a ++ b ≠ "" := by
  rw [str_ne_empty_iff] at h ⊢
  show a.toList ++ b.toList ≠ []
  simp only [ne_eq, List.append_eq_nil]
  exact fun hc => h hc.1

/-- A positive-length slice of a string is empty iff the string is. -/
theorem pySlice_eq_empty_iff {n : ℕ} (hn : 0 < n) {s : String} :
    pySlice n s = "" ↔ s = "" := by
  rw [← String.toList_inj, ← String.toList_inj]
  show s.toList.take n = "".toList ↔ s.toList = "".toList
  rw [String.toList_empty, List.take_eq_nil_iff]
  constructor
  · rintro (h | h)
    · omega
    · exact h
  · exact fun h => Or.inr h

/-- Uppercasing preserves (non-)emptiness. -/
theorem pyUpper_eq_empty_iff {s : String} : pyUpper s = "" ↔ s = "" := by
  rw [← String.toList_inj, ← String.toList_inj]
  show s.toList.map Char.toUpper = "".toList ↔ s.toList = "".toList
  rw [String.toList_empty, List.map_eq_nil_iff]

/-- `pad2` always renders two characters. -/
theorem pad2_length (n : ℕ) : (pad2 n).length = 2 := rfl

/-- `pad2` never renders the empty string. -/
theorem pad2_ne_empty (n : ℕ) : pad2 n ≠ "" := by
  rw [pad2, mk_ne_empty_iff]
  simp

/-- `fmtYear` never renders the empty string. -/
theorem fmtYear_ne_empty (y : ℕ) : fmtYear y ≠ "" := by
  rw [fmtYear]
  split_ifs
  · rw [mk_ne_empty_iff]; simp
  · exact pad2_ne_empty y
  · rw [mk_ne_empty_iff]; simp
  · rw [mk_ne_empty_iff]; simp

/-- Claim C5: for PII whose full name contains a first name and whose date
of birth parses as `YYYY-MM-DD`, the generated collection contains the
first four letters of the first name uppercased followed by the DOB's day
and month as DDMM, and in particular is non-empty. -/
theorem passwords_contain_name_ddmm
    (full_name dob_str mobile_number credit_card_number : String)
    (y m d : ℕ)
    (hname : firstNameLower full_name ≠ "")
    (hdob : parseDob dob_str = some (y, m, d)) :
    nameFourUpper full_name ++ (pad2 d ++ pad2 m) ∈
      generate_potential_passwords full_name dob_str mobile_number
        credit_card_number ∧
    (generate_potential_passwords full_name dob_str mobile_number
        credit_card_number).Nonempty := by
  have hn4U : nameFourUpper full_name ≠ "" := by
    rw [nameFourUpper, ne_eq, pyUpper_eq_empty_iff,
      pySlice_eq_empty_iff (by norm_num)]
    exact hname
  have hddmm : pad2 d ++ pad2 m ≠ "" :=
    append_ne_empty_left _ (pad2_ne_empty d)
  have hlen : (pad2 d ++ pad2 m).length = 4 := by
    rw [String.length_append, pad2_length, pad2_length]
  have hmem : nameFourUpper full_name ++ (pad2 d ++ pad2 m) ∈
      generate_potential_passwords full_name dob_str mobile_number
        credit_card_number := by
    rw [generate_potential_passwords, Finset.mem_erase]
    refine ⟨append_ne_empty_left _ hn4U, ?_⟩
    rw [mem_guardedFold]
    refine Or.inr ⟨(nameFourUpper full_name != "" &&
        ((pad2 d ++ pad2 m) != "") && ((pad2 d ++ pad2 m).length == 4),
      nameFourUpper full_name ++ (pad2 d ++ pad2 m)), ?_, ?_, rfl⟩
    · simp [passwordCandidates, dobComponents, hdob]
    · simp [hn4U, hddmm, hlen]
  exact ⟨hmem, ⟨_, hmem⟩⟩

/-- Witness for the claim C5 theorem at concrete PII. -/
theorem passwords_contain_name_ddmm_witness :
    firstNameLower "Amit Sharma" ≠ "" ∧
    parseDob "1990-07-15" = some (1990, 7, 15) ∧
    nameFourUpper "Amit Sharma" ++ (pad2 15 ++ pad2 7) ∈
      generate_potential_passwords "Amit Sharma" "1990-07-15" "9876543210"
        "1234567812345678" ∧
    (generate_potential_passwords "Amit Sharma" "1990-07-15" "9876543210"
        "1234567812345678").Nonempty := by
  have h1 : firstNameLower "Amit Sharma" ≠ "" := by decide
  have h2 : parseDob "1990-07-15" = some (1990, 7, 15) := by decide
  have h := passwords_contain_name_ddmm "Amit Sharma" "1990-07-15"
    "9876543210" "1234567812345678" 1990 7 15 h1 h2
  exact ⟨h1, h2, h.1, h.2⟩

/-- The specification-side description for claim C6 (spec §4.1 and the
claim's wording): the passwords derivable from the PII pieces that are
present — name-based patterns only when a first name exists, DOB-based
patterns only when the DOB parses, card-based patterns only when card
digits are available (the bank-specific first pattern needs exactly
four). -/
def derivablePasswords (full_name dob_str credit_card_number : String) :
    Finset String :=
  let n4U := nameFourUpper full_name
  let n4l := nameFourLower full_name
  let l4 := lastFourCard credit_card_number
  let hasName := firstNameLower full_name ≠ ""
  (if hasName ∧ l4.length = 4 then {n4U ++ l4} else ∅) ∪
  (match parseDob dob_str with
   | some (y, m, d) =>
     (if hasName then
        ({n4U ++ (pad2 d ++ pad2 m), n4l ++ pad2 d ++ pad2 m,
          n4l ++ pad2 d ++ pad2 m ++ pad2 (y % 100),
          pyUpper n4l ++ pad2 d ++ pad2 m} : Finset String)
      else ∅) ∪
     ({pad2 d ++ pad2 m ++ pad2 (y % 100), pad2 d ++ pad2 m ++ fmtYear y} :
       Finset String)
   | none => ∅) ∪
  (if hasName ∧ l4 ≠ "" then {n4l ++ l4, pyUpper n4l ++ l4} else ∅)


/-- Membership in `if c then s else ∅`. -/
theorem mem_ite_empty_right (c : Prop) [Decidable c] (s : Finset String)
    (x : String) : (x ∈ if c then s else ∅) ↔ c ∧ x ∈ s := by
  split_ifs with h <;> simp [h]

/-- Membership in `if c then ∅ else s`. -/
theorem mem_ite_empty_left (c : Prop) [Decidable c] (s : Finset String)
    (x : String) : (x ∈ if c then ∅ else s) ↔ ¬c ∧ x ∈ s := by
  split_ifs with h <;> simp [h]

/-- Every password the source would insert is non-empty whenever its guard
holds: each pattern starts with a component its guard requires truthy. -/
theorem candidates_nonempty (fn dob ccn : String) :
    ∀ gp ∈ passwordCandidates fn dob ccn, gp.1 = true → gp.2 ≠ "" := by
  intro gp hgp hg
  rcases hdob : parseDob dob with _ | ydm
  · simp only [passwordCandidates, dobComponents, hdob, List.mem_cons,
      List.not_mem_nil, or_false] at hgp
    rcases hgp with rfl | rfl | rfl | rfl | rfl | rfl | rfl | rfl | rfl
    · simp only [Bool.and_eq_true, bne_iff_ne, beq_iff_eq] at hg
      exact append_ne_empty_left _ hg.1.1
    · simp at hg
    · simp at hg
    · simp at hg
    · simp at hg
    · simp only [Bool.and_eq_true, bne_iff_ne] at hg
      exact append_ne_empty_left _ hg.1
    · simp only [Bool.and_eq_true, bne_iff_ne] at hg
      refine append_ne_empty_left _ ?_
      rw [ne_eq, pyUpper_eq_empty_iff]
      exact hg.1
    · simp at hg
    · simp at hg
  · obtain ⟨y, m, d⟩ := ydm
    simp only [passwordCandidates, dobComponents, hdob, List.mem_cons,
      List.not_mem_nil, or_false] at hgp
    rcases hgp with rfl | rfl | rfl | rfl | rfl | rfl | rfl | rfl | rfl
    · simp only [Bool.and_eq_true, bne_iff_ne, beq_iff_eq] at hg
      exact append_ne_empty_left _ hg.1.1
    · simp only [Bool.and_eq_true, bne_iff_ne, beq_iff_eq] at hg
      exact append_ne_empty_left _ hg.1.1
    · simp only [Bool.and_eq_true, bne_iff_ne] at hg
      exact append_ne_empty_left _ (append_ne_empty_left _ hg.1.1)
    · simp only [Bool.and_eq_true, bne_iff_ne] at hg
      exact append_ne_empty_left _
        (append_ne_empty_left _ (append_ne_empty_left _ hg.1.1.1))
    · simp only [Bool.and_eq_true, bne_iff_ne] at hg
      refine append_ne_empty_left _ (append_ne_empty_left _ ?_)
      rw [ne_eq, pyUpper_eq_empty_iff]
      exact hg.1.1
    · simp only [Bool.and_eq_true, bne_iff_ne] at hg
      exact append_ne_empty_left _ hg.1
    · simp only [Bool.and_eq_true, bne_iff_ne] at hg
      refine append_ne_empty_left _ ?_
      rw [ne_eq, pyUpper_eq_empty_iff]
      exact hg.1
    · exact append_ne_empty_left _ (append_ne_empty_left _ (pad2_ne_empty d))
    · exact append_ne_empty_left _ (append_ne_empty_left _ (pad2_ne_empty d))

/-- Membership in the generated password set, with the `discard("")`
absorbed (no guarded pattern is empty). -/
theorem mem_generate (fn dob mob ccn x : String) :
    x ∈ generate_potential_passwords fn dob mob ccn ↔
      ∃ gp ∈ passwordCandidates fn dob ccn, gp.1 = true ∧ x = gp.2 := by
  rw [generate_potential_passwords, Finset.mem_erase, mem_guardedFold]
  simp only [Finset.not_mem_empty, false_or]
  constructor
  · rintro ⟨hne, h⟩
    exact h
  · intro h
    refine ⟨?_, h⟩
    obtain ⟨gp, hgp, hg, rfl⟩ := h
    exact candidates_nonempty fn dob ccn gp hgp hg

/-- Claim C6: generate_potential_passwords is a total function (it returns
a set for every input, never raising), and its output is exactly the set of
patterns derivable from the inputs that are present: an absent first name,
an unparsable DOB, or missing card digits skip precisely the patterns
depending on them. -/
theorem passwords_eq_derivable
    (full_name dob_str mobile_number credit_card_number : String) :
    generate_potential_passwords full_name dob_str mobile_number
        credit_card_number =
      derivablePasswords full_name dob_str credit_card_number := by
  have hn4U : nameFourUpper full_name = "" ↔ firstNameLower full_name = "" := by
    rw [nameFourUpper, pyUpper_eq_empty_iff, pySlice_eq_empty_iff (by norm_num)]
  have hn4l : nameFourLower full_name = "" ↔ firstNameLower full_name = "" := by
    rw [nameFourLower, pySlice_eq_empty_iff (by norm_num)]
  have hl4 : (lastFourCard credit_card_number).length = 4 →
      lastFourCard credit_card_number ≠ "" := by
    intro h hc
    rw [hc] at h
    exact absurd h (by decide)
  ext x
  rw [mem_generate]
  by_cases hname : firstNameLower full_name = ""
  · have h4U : nameFourUpper full_name = "" := hn4U.mpr hname
    have h4l : nameFourLower full_name = "" := hn4l.mpr hname
    cases hdob : parseDob dob_str with
    | none =>
      simp [passwordCandidates, derivablePasswords, dobComponents, hdob,
        h4U, h4l, hname, mem_ite_empty_right, mem_ite_empty_left]
    | some t =>
      obtain ⟨y, m, d⟩ := t
      simp [passwordCandidates, derivablePasswords, dobComponents, hdob,
        h4U, h4l, hname, pad2_ne_empty, fmtYear_ne_empty, mem_ite_empty_right,
        mem_ite_empty_left]
  · have hU : nameFourUpper full_name ≠ "" := fun h => hname (hn4U.mp h)
    have hL : nameFourLower full_name ≠ "" := fun h => hname (hn4l.mp h)
    cases hdob : parseDob dob_str with
    | none =>
      simp [passwordCandidates, derivablePasswords, dobComponents, hdob,
        hU, hL, hname, mem_ite_empty_right, mem_ite_empty_left]
      tauto
    | some t =>
      obtain ⟨y, m, d⟩ := t
      have hddmm : pad2 d ++ pad2 m ≠ "" :=
        append_ne_empty_left _ (pad2_ne_empty d)
      have hddmmlen : (pad2 d ++ pad2 m).length = 4 := by
        rw [String.length_append, pad2_length, pad2_length]
      simp [passwordCandidates, derivablePasswords, dobComponents, hdob,
        hU, hL, hname, hddmm, hddmmlen, pad2_ne_empty, fmtYear_ne_empty,
        mem_ite_empty_right, mem_ite_empty_left]
      constructor
      · rintro (⟨⟨hA, hB⟩, hx⟩ | hx | hx | hx | hx | ⟨hA, hx⟩ | ⟨hA, hx⟩ |
          hx | hx)
        · exact Or.inr (Or.inr (Or.inr (Or.inr (Or.inl ⟨hB, hx⟩))))
        · exact Or.inr (Or.inl hx)
        · exact Or.inr (Or.inr (Or.inl hx))
        · exact Or.inr (Or.inr (Or.inr (Or.inl hx)))
        · exact Or.inr (Or.inr (Or.inr (Or.inr (Or.inr (Or.inl hx)))))
        · exact Or.inr (Or.inr (Or.inr (Or.inr (Or.inr (Or.inr (Or.inr
            ⟨hA, Or.inl hx⟩))))))
        · exact Or.inr (Or.inr (Or.inr (Or.inr (Or.inr (Or.inr (Or.inr
            ⟨hA, Or.inr hx⟩))))))
        · exact Or.inl hx
        · exact Or.inr (Or.inr (Or.inr (Or.inr (Or.inr (Or.inr
            (Or.inl hx))))))
      · rintro (hx | hx | hx | hx | ⟨hB, hx⟩ | hx | hx | ⟨hA, hx | hx⟩)
        · exact Or.inr (Or.inr (Or.inr (Or.inr (Or.inr (Or.inr (Or.inr
            (Or.inl hx)))))))
        · exact Or.inr (Or.inl hx)
        · exact Or.inr (Or.inr (Or.inl hx))
        · exact Or.inr (Or.inr (Or.inr (Or.inl hx)))
        · exact Or.inl ⟨⟨hl4 hB, hB⟩, hx⟩
        · exact Or.inr (Or.inr (Or.inr (Or.inr (Or.inl hx))))
        · exact Or.inr (Or.inr (Or.inr (Or.inr (Or.inr (Or.inr (Or.inr
            (Or.inr hx)))))))
        · exact Or.inr (Or.inr (Or.inr (Or.inr (Or.inr (Or.inl ⟨hA, hx⟩)))))
        · exact Or.inr (Or.inr (Or.inr (Or.inr (Or.inr (Or.inr
            (Or.inl ⟨hA, hx⟩))))))

end CCStmt

namespace CCStmt

/-- The result of `json.loads` on the cleaned Gemini response, one level
deep: an object with scalar fields, an array of scalars, or a bare scalar.
The source never inspects nested containers, so deeper structure is not
modelled. -/
inductive JTop where
  | obj (kvs : PyDict)
  | arr (xs : List JVal)
  | top (v : JVal)
deriving DecidableEq, Repr

/-- Whether `needle` occurs as a contiguous run inside `hay` (Python
substring containment `needle in hay`). -/
def containsSub (needle : List Char) : List Char → Bool
  | [] => needle == []
  | c :: r => (c :: r).take needle.length == needle || containsSub needle r

/-- Python `k in details` on the parsed JSON value (text_parser.py lines
123, 125): key lookup on a dict, substring test on a str, element equality
on a list, and a `TypeError` (raised, caught by the enclosing `except`) on
a number or `None`. -/
def pyContains (details : JTop) (k : String) : Except Unit Bool :=
  match details with
  | .obj kvs => .ok (kvs.any (fun kv => kv.1 == k))
  | .arr xs => .ok (xs.any (fun v => v == .jstr k))
  | .top (.jstr s) => .ok (containsSub k.toList s.toList)
  | .top _ => .error ()

/-- Python `details[k]` (text_parser.py lines 124, 126): dict lookup;
indexing a str or list with a string key raises `TypeError`. -/
def pyGetItem (details : JTop) (k : String) : Except Unit JVal :=
  match details with
  | .obj kvs =>
    match dictGet kvs k with
    | some v => .ok v
    | none => .error ()
  | _ => .error ()

/-- Python `details[k] = v`: only a dict supports item assignment. -/
def pySetItem (details : JTop) (k : String) (v : JVal) : Except Unit JTop :=
  match details with
  | .obj kvs => .ok (.obj (dictSet kvs k v))
  | _ => .error ()

/-- One amount-formatting statement of text_parser.py lines 123-126:
`if k in details and details[k] is not None:
details[k] = format_extracted_amount(details[k])`. -/
def formatFieldStep (details : JTop) (k : String) : Except Unit JTop := do
  let present ← pyContains details k
  if present then
    let v ← pyGetItem details k
    if v ≠ .jnull then pySetItem details k (format_extracted_amount v)
    else pure details
  else pure details

/-- Python `s[:n]` on strings (prompt truncation). -/
def strTake (s : String) (n : ℕ) : String := String.mk (s.toList.take n)

/-- Whether a startsWith test holds: the first characters equal the given
word (Python `str.startswith`). -/
def strStartsWith (s pre : String) : Bool :=
  s.toList.take pre.toList.length == pre.toList

/-- Python `str.endswith`. -/
def strEndsWith (s suf : String) : Bool :=
  s.toList.drop (s.toList.length - suf.toList.length) == suf.toList

/-- Python `s[n:]`. -/
def strDrop (s : String) (n : ℕ) : String := String.mk (s.toList.drop n)

/-- Python `s[:-n]` for positive `n` (here only applied when the string
ends with a three-character fence, hence is at least that long). -/
def strDropRight (s : String) (n : ℕ) : String :=
  String.mk (s.toList.take (s.toList.length - n))

/-- The markdown-fence cleanup of the raw Gemini response
(text_parser.py lines 101-110): strip, remove a leading "```json" or
"```", remove a trailing "```", strip again. -/
def stripFences (respText : String) : String :=
  let c := pyStrip respText
  let c :=
    if strStartsWith c "```json" then strDrop c 7
    else if strStartsWith c "```" then strDrop c 3
    else c
  let c := if strEndsWith c "```" then strDropRight c 3 else c
  pyStrip c

/-- text_parser.extract_financial_details (src/text_parser.py lines
38-148).  The Gemini call is abstracted as `backend`, taking the truncated
statement text and either raising (`Except.error`, any API failure) or
returning the raw response text; `parseJson` abstracts `json.loads`
(`none` for a `json.JSONDecodeError`); `apiKey` models
`config.GEMINI_API_KEY` (`none` and `some ""` are both falsy).  Empty or
whitespace-only input, a falsy key, a raised backend error, an empty
cleaned response, an unparseable response, and any `TypeError` raised by
the amount-formatting lines all yield `{}`; otherwise the parsed value is
returned as is — even when it is not a dict. -/
def extract_financial_details (apiKey : Option String)
    (backend : String → Except Unit String)
    (parseJson : String → Option JTop) (text_content : String) : JTop :=
  if pyStrip text_content = "" then .obj []
  else if apiKey = none ∨ apiKey = some "" then .obj []
  else
    let body : Except Unit JTop := do
      let respText ← backend (strTake text_content 15000)
      let cleaned := stripFences respText
      if cleaned = "" then return .obj []
      match parseJson cleaned with
      | none => throw ()
      | some details => do
        let d1 ← formatFieldStep details "total_amount_due"
        let d2 ← formatFieldStep d1 "minimum_amount_due"
        return d2
    match body with
    | .ok v => v
    | .error _ => .obj []

/-- `json.loads` on the concrete response texts used below: the JSON
string literal `"hello"` parses to the Python str `hello`; the non-JSON
text fails. -/
def demoParseJson : String → Option JTop :=
  fun s => if s = "\"hello\"" then some (.top (.jstr "hello")) else none

end CCStmt

namespace CCStmt

/-- Claim C7 (code slip): a backend response that is valid JSON but not an
object — here the JSON string literal `"hello"` — slips through every
guard: `json.loads` succeeds, the `in` checks are substring tests on a
`str`, and `return details` hands the string itself back to the pipeline
instead of the documented empty dict (the function is annotated
`-> dict`; the pipeline's `dict.update` then raises on it).  The four
guarded failure paths do return `{}` as the claim says: empty/whitespace
text, missing key, raising backend, unparseable response. -/
theorem extract_details_returns_nondict :
    extract_financial_details (some "key") (fun _ => .ok "\"hello\"")
        demoParseJson "Total Amount Due: Rs. 6,225.00" = .top (.jstr "hello") ∧
    JTop.top (.jstr "hello") ≠ JTop.obj [] ∧
    extract_financial_details (some "key") (fun _ => .ok "\"hello\"")
        demoParseJson "   " = .obj [] ∧
    extract_financial_details none (fun _ => .ok "\"hello\"")
        demoParseJson "statement text" = .obj [] ∧
    extract_financial_details (some "key") (fun _ => .error ())
        demoParseJson "statement text" = .obj [] ∧
    extract_financial_details (some "key") (fun _ => .ok "not json")
        demoParseJson "statement text" = .obj [] := by
  refine ⟨by decide, by decide, by decide, by decide, by decide, by decide⟩

end CCStmt

namespace CCStmt

/-- The debugging pre-pass of process_emails (email_processor.py lines
74-116): the headers of the `min(total, 3)` most recent messages of the
WHOLE inbox are fetched with `mail.fetch(..., '(BODY[HEADER.FIELDS ...)')`,
latest first, regardless of the statement subject search
(`reversed(email_ids_all[-num_emails_to_log_debug:])`, lines 82-89).
`allIds` is the id list of the `ALL` search in mailbox order (oldest
first). -/
def debugFetchIds (allIds : List ℕ) : List ℕ :=
  (allIds.drop (allIds.length - min allIds.length 3)).reverse

/-- The processing loop's fetch order (email_processor.py lines 173-176):
`reversed(email_ids[-emails_to_process_count:])` with
`emails_to_process_count = min(len(email_ids),
config.MAX_EMAILS_TO_PROCESS_PER_RUN)`.  `matchIds` is the subject-search
result in mailbox order (oldest first, as IMAP SEARCH returns ids).
Python's negative slice has a quirk the model must keep: `-0 == 0`, so
when the count is zero `email_ids[-0:]` is the WHOLE list and every match
is processed (most recent first); for a positive count it is the last
`count` elements. -/
def processFetchIds (matchIds : List ℕ) (cap : ℕ) : List ℕ :=
  if min matchIds.length cap = 0 then matchIds.reverse
  else (matchIds.drop (matchIds.length - min matchIds.length cap)).reverse

/-- Every message id `mail.fetch` is called on during a run, in call
order: the debug header fetches, then the full-message fetches of the
processing loop. -/
def fetchedIds (allIds matchIds : List ℕ) (cap : ℕ) : List ℕ :=
  debugFetchIds allIds ++ processFetchIds matchIds cap

/-- Claim C8 as stated is false in two ways.  First, with an inbox holding
exactly the three matching messages 1, 2, 3 (oldest first) and a cap of 2,
the beyond-cap match 1 is never fetched for processing, but the debugging
pre-pass does fetch it (its headers), so "matching messages beyond the cap
are never fetched" fails.  Second, with a cap of 0, Python's
`email_ids[-0:]` is the whole list, so all three matches are processed
(most recent first) instead of the claimed `min(3, 0) = 0`. -/
theorem cap_exceeded_match_still_fetched :
    ((1 : ℕ) ∈ fetchedIds [1, 2, 3] [1, 2, 3] 2 ∧
      (1 : ℕ) ∉ processFetchIds [1, 2, 3] 2) ∧
    processFetchIds [1, 2, 3] 0 = [3, 2, 1] ∧
    (processFetchIds [1, 2, 3] 0).length ≠ min ([1, 2, 3] : List ℕ).length 0 := by
  refine ⟨⟨by decide, by decide⟩, by decide, by decide⟩

/-- Claim C8, amended: for a positive per-run cap, exactly `min(M, N)`
messages are processed — the most recent matches, most-recent-first — and
a matching message beyond the cap is never fetched in full for processing;
the only other fetches are the debugging pre-pass over the headers of the
up-to-3 most recent inbox messages.  With a cap of zero the `[-0:]` slice
covers the whole list, so every match is processed, most recent first. -/
theorem cap_processing_order (matchIds : List ℕ) (cap : ℕ) (hcap : 1 ≤ cap) :
    (processFetchIds matchIds cap).length = min matchIds.length cap ∧
    processFetchIds matchIds cap = matchIds.reverse.take cap ∧
    (∀ allIds x, x ∈ fetchedIds allIds matchIds cap →
      x ∈ processFetchIds matchIds cap ∨ x ∈ debugFetchIds allIds) ∧
    processFetchIds matchIds 0 = matchIds.reverse := by
  have htake : processFetchIds matchIds cap = matchIds.reverse.take cap := by
    rw [processFetchIds]
    by_cases hzero : min matchIds.length cap = 0
    · have hnil : matchIds = [] := by
        rcases Nat.min_eq_zero_iff.mp hzero with h | h
        · exact List.length_eq_zero.mp h
        · omega
      subst hnil
      simp
    · rw [if_neg hzero]
      rcases Nat.le_total cap matchIds.length with h | h
      · rw [min_comm, min_eq_left h]
        have hsplit := List.take_append_drop (matchIds.length - cap) matchIds
        have hlen : (matchIds.drop (matchIds.length - cap)).length = cap := by
          rw [List.length_drop]
          omega
        calc (matchIds.drop (matchIds.length - cap)).reverse
            = (matchIds.drop (matchIds.length - cap)).reverse.take cap := by
              rw [List.take_of_length_le]
              rw [List.length_reverse, hlen]
          _ = matchIds.reverse.take cap := by
              conv_rhs => rw [← hsplit]
              rw [List.reverse_append, List.take_append_of_le_length]
              rw [List.length_reverse, hlen]
      · rw [min_comm, min_eq_right h, Nat.sub_self, List.drop_zero,
          List.take_of_length_le]
        rw [List.length_reverse]
        exact h
  refine ⟨?_, htake, ?_, ?_⟩
  · rw [htake, List.length_take, List.length_reverse, min_comm]
  · intro allIds x hx
    rw [fetchedIds, List.mem_append] at hx
    exact hx.symm
  · rw [processFetchIds, if_pos (Nat.min_eq_zero_iff.mpr (Or.inr rfl))]

/-- Witness for the amended claim C8 theorem at a concrete mailbox. -/
theorem cap_processing_order_witness :
    (1 : ℕ) ≤ 2 ∧
    (processFetchIds [1, 2, 3] 2).length = min ([1, 2, 3] : List ℕ).length 2 ∧
    processFetchIds [1, 2, 3] 2 = ([1, 2, 3] : List ℕ).reverse.take 2 ∧
    ((1 : ℕ) ∈ fetchedIds [1, 2, 3] [1, 2, 3] 2 →
      (1 : ℕ) ∈ processFetchIds [1, 2, 3] 2 ∨
        (1 : ℕ) ∈ debugFetchIds [1, 2, 3]) ∧
    processFetchIds [1, 2, 3] 0 = ([1, 2, 3] : List ℕ).reverse := by
  have h := cap_processing_order [1, 2, 3] 2 (by decide)
  exact ⟨by decide, h.1, h.2.1, h.2.2.1 [1, 2, 3] 1, h.2.2.2⟩

/-- The distinguishable exit paths of a process_emails run
(email_processor.py lines 58-60, 149-157, 338-340, 342-352). -/
inductive RunExit where
  | credsMissing
  | searchFailed
  | noMatches
  | completed
  | exceptionAfterLogin
deriving DecidableEq, Repr

/-- Whether an IMAP connection was opened on this exit path: only the
missing-credentials abort (line 60) returns before `IMAP4_SSL`/`login`. -/
def connectionOpened : RunExit → Bool
  | .credsMissing => false
  | _ => true

/-- Whether `mail.logout()` runs before process_emails returns on this
exit path: the failed-search return (line 151), the no-matches return
(line 156) and normal completion (line 338) all log out first, but the
`except` handlers (lines 342-352) return the error object directly — the
logout contemplated there is commented out (lines 344-347). -/
def logoutCalled : RunExit → Bool
  | .credsMissing => false
  | .searchFailed => true
  | .noMatches => true
  | .completed => true
  | .exceptionAfterLogin => false

/-- Claim C9 (code slip): on the exit path where an exception is raised
after login — e.g. a dropped connection during `mail.fetch`, or any
unexpected error inside the processing loop — the connection was opened
but `mail.logout()` is never called before returning, contradicting the
claim that every exit path closes the mailbox connection.  The three
non-exceptional paths that reach the mailbox do log out. -/
theorem exception_path_leaks_connection :
    connectionOpened .exceptionAfterLogin = true ∧
    logoutCalled .exceptionAfterLogin = false ∧
    logoutCalled .searchFailed = true ∧
    logoutCalled .noMatches = true ∧
    logoutCalled .completed = true := by
  refine ⟨rfl, rfl, rfl, rfl, rfl⟩

end CCStmt
